import Mathlib

/-!
# L2 service access point (`l2sap.c`): frame codec, transmit path, receive path

A shallow embedding of `compute_checksum`, `l2sap_create`, `l2sap_sendto` and
`l2sap_recvfrom_timeout`.

* A byte (`uint8_t`) is a `Fin 256`; the XOR of two bytes is computed on the
  underlying naturals and reduced `% 256`.
* A C `int` is an `Int`; `size_t` arithmetic is done modulo `2 ^ 64`, the
  conversion to `uint16_t` modulo `2 ^ 16`, the conversion back to `int`
  by `toInt32`.
* A buffer is a `List Byte`: the bytes readable at the pointer.
* The operating system is explicit: the value returned by `select`
  (`activity`), what `recvfrom` returned and stored (`rc`, `buf`, the sender's
  `peer_addr`) and the value returned by the `sendto` system call (`wc`) are
  parameters; every datagram handed to `sendto` is recorded in the result. For
  `l2sap_create` the values returned by `socket`, `inet_pton` and `malloc` are
  parameters and the open descriptors are an explicit list.
* The header `l2sap.h` is not available: `L2Framesize` is a
  parameter of the transmit path, the header layout is taken from the
  specification.
-/

namespace L2

/-! ## Bytes and machine integers -/

/-- One `uint8_t`. -/
abbrev Byte := Fin 256

/-- The C expression `a ^ b` stored into a `uint8_t`. -/
def bxor (a b : Byte) : Byte :=
  ⟨(a.val ^^^ b.val) % 256, Nat.mod_lt _ (by decide)⟩

/-- Conversion of an integer value to `size_t` (64 bits, unsigned). -/
def toSizeT (x : Int) : Nat := (x % 2 ^ 64).toNat

/-- Conversion of an unsigned value to `int` (32 bits, two's complement). -/
def toInt32 (n : Nat) : Int := ((n : Int) + 2 ^ 31) % 2 ^ 32 - 2 ^ 31

/-- Truncation of a natural number to a `uint8_t`. -/
def toByte (n : Nat) : Byte := ⟨n % 256, Nat.mod_lt _ (by decide)⟩

/-- The two bytes that `htons (x)` leaves in memory for the value `x` converted to
`uint16_t`: most significant byte first. -/
def htons (x : Nat) : Byte × Byte :=
  (toByte ((x % 65536) / 256), toByte ((x % 65536) % 256))

/-- The C library call `memcpy (dst + off, src, n)` on the bytes at `dst`. -/
def memcpyAt (dst : List Byte) (off : Nat) (src : List Byte) (n : Nat) : List Byte :=
  dst.take off ++ src.take n ++ dst.drop (off + n)

/-! ## Header layout and constants -/

/-- Modelled from the spec: `sizeof (L2Header)`, declared in `l2sap.h`; the header is
4 + 2 + 1 + 1 = 8 bytes (destination address, total length, checksum, reserved). -/
def L2Headersize : Nat := 8

/-- Modelled from the spec: `offsetof (L2Header, checksum)`, declared in `l2sap.h`;
the checksum byte follows the 4 address bytes and the 2 length bytes. -/
def checksumOffset : Nat := 6

/-- Modelled from the spec: the constant `L2_TIMEOUT` of `l2sap.h`, whose value is 0. -/
def L2_TIMEOUT : Int := 0

/-! ## Data model -/

/-- A `struct in_addr`: the four bytes of `s_addr` as they lie in memory (network
byte order, that is the raw IPv4 bytes). -/
structure InAddr where
  b0 : Byte
  b1 : Byte
  b2 : Byte
  b3 : Byte
deriving DecidableEq, Repr

/-- A `struct sockaddr_in`. -/
structure SockAddrIn where
  sin_family : Nat
  sin_port : Nat
  sin_addr : InAddr
deriving DecidableEq, Repr

/-- The session `struct L2SAP`: a socket descriptor and the current peer. -/
structure L2SAP where
  socket : Int
  peer_addr : SockAddrIn
deriving DecidableEq, Repr

/-- One call of the `sendto` system call: descriptor, bytes, destination. -/
structure Datagram where
  socket : Int
  bytes : List Byte
  dest : SockAddrIn
deriving DecidableEq, Repr

/-- What a call of `l2sap_sendto` leaves behind: the session, the returned value (`none`
when the call does not return because `memcpy` ran past the end of `buff`), the size
passed to `memcpy` when the payload was copied, and the system calls made. -/
structure SendResult where
  client : L2SAP
  ret : Option Int
  copied : Option Nat
  sent : List Datagram
deriving DecidableEq, Repr

/-- What a call of `l2sap_recvfrom_timeout` leaves behind: the session, the memory
at `data`, and the returned value. -/
structure RecvResult where
  client : L2SAP
  data : List Byte
  ret : Int
deriving DecidableEq, Repr

/-! ## The code -/

/-- The loop of `compute_checksum`, for `i` from `0` to `len - 1`: the byte
at `i` is XORed into the accumulator unless `i` is the offset of the checksum. -/
def checksumLoop (frame : List Byte) (len : Nat) : Byte :=
  (List.range len).foldl
    (fun checksum i => if i ≠ checksumOffset then bxor checksum (frame.getD i 0) else checksum)
    0

/-- The function `compute_checksum (frame, len)`; a negative `len` runs no iteration. -/
def compute_checksum (frame : List Byte) (len : Int) : Byte :=
  checksumLoop frame len.toNat

/-- The function `l2sap_sendto (client, data, len)`. `L2Framesize` is the constant
of `l2sap.h`, `wc` the value the `sendto` system call returns. `buff` has `L2Framesize`
bytes: a `memcpy` whose destination range `8 .. 8 + n - 1` does not fit in it overruns
the buffer, and the call ends there, before the checksum and before `sendto`. -/
def l2sap_sendto (L2Framesize : Nat) (client : L2SAP) (data : List Byte) (len : Int)
    (wc : Int) : SendResult :=
  -- `sizeof (struct L2Header) + len`, computed in `size_t`
  let total : Nat := toSizeT ((L2Headersize : Int) + len)
  if total > L2Framesize then
    { client := client, ret := some (-1), copied := none, sent := [] }
  else
    -- `uint8_t buff[L2Framesize]`, filled with zeros
    let buff : List Byte := List.replicate L2Framesize 0
    -- `newL2Header->dst_addr = client->peer_addr.sin_addr.s_addr`
    let a := client.peer_addr.sin_addr
    let buff := (((buff.set 0 a.b0).set 1 a.b1).set 2 a.b2).set 3 a.b3
    -- `newL2Header->len = htons (len + sizeof (L2Header))`
    let l := htons total
    let buff := (buff.set 4 l.1).set 5 l.2
    -- `newL2Header->checksum = 0; newL2Header->mbz = 0`
    let buff := (buff.set checksumOffset 0).set 7 0
    -- `memcpy (buff + sizeof (L2Header), data, len)`
    let n : Nat := toSizeT len
    if L2Headersize + n > L2Framesize then
      -- the copy writes past the end of `buff`: the call does not return
      { client := client, ret := none, copied := some n, sent := [] }
    else
      let buff := memcpyAt buff L2Headersize data n
      -- `newL2Header->checksum = compute_checksum (buff, sizeof (L2Header) + len)`
      let buff := buff.set checksumOffset (compute_checksum buff (toInt32 total))
      -- `sendto (client->socket, buff, sizeof (L2Header) + len, 0, &client->peer_addr, ...)`
      let dgram : Datagram :=
        { socket := client.socket, bytes := buff.take total, dest := client.peer_addr }
      if wc = -1 then
        { client := client, ret := some (-1), copied := some n, sent := [dgram] }
      else
        { client := client, ret := some 0, copied := some n, sent := [dgram] }

/-- The function `l2sap_recvfrom_timeout (client, data, len, timeout)`. `activity` is
the value `select` returns (with or without a timeout), `rc` the value `recvfrom`
returns, `buf` the bytes it stored at the start of the zeroed receive buffer and
`peer_addr` the sender it reported. The parameter `len` is not read by the code. -/
def l2sap_recvfrom_timeout (client : L2SAP) (data : List Byte) (_len : Int)
    (activity : Int) (rc : Int) (buf : List Byte) (peer_addr : SockAddrIn) : RecvResult :=
  if activity < 0 then
    { client := client, data := data, ret := -1 }
  else if activity = 0 then
    { client := client, data := data, ret := L2_TIMEOUT }
  else if rc < 0 then
    { client := client, data := data, ret := -1 }
  else if rc < (L2Headersize : Int) then
    { client := client, data := data, ret := -1 }
  else if rc = (L2Headersize : Int) then
    { client := client, data := data, ret := 0 }
  else
    -- `original_checksum = l2header->checksum; l2header->checksum = 0`
    let original_checksum : Byte := buf.getD checksumOffset 0
    let buf := buf.set checksumOffset 0
    if compute_checksum buf rc ≠ original_checksum then
      { client := client, data := data, ret := -1 }
    else
      -- `memcpy (&client->peer_addr, &peer_addr, sizeof (peer_addr))`
      -- `memcpy (data, buf + L2Headersize, rc - L2Headersize)`
      { client := { client with peer_addr := peer_addr },
        data := memcpyAt data 0 (buf.drop L2Headersize) (toSizeT (rc - (L2Headersize : Int))),
        ret := rc - (L2Headersize : Int) }

/-- The address family constant `AF_INET` of the socket interface. -/
def AF_INET : Nat := 2

/-- What a call of `l2sap_create` leaves behind: the session it returns (`none` for
`NULL`) and the descriptors that are open. -/
structure CreateResult where
  session : Option L2SAP
  openFds : List Int
deriving DecidableEq, Repr

/-- The function `l2sap_create (server_ip, server_port)` over the list `openFds` of open
descriptors. `fd` is the value `socket` returns (-1, or a descriptor that is open from
then on), `wc` the value `inet_pton` returns for `server_ip` and `ip_addr` the address
it stored, `mallocOk` whether `malloc` returns memory. The port is kept as the number
`htons` encodes, `server_port` converted to `uint16_t`. -/
def l2sap_create (openFds : List Int) (_server_ip : String) (server_port : Int)
    (fd : Int) (wc : Int) (ip_addr : InAddr) (mallocOk : Bool) : CreateResult :=
  -- `int fd = socket (AF_INET, SOCK_DGRAM, 0)`
  if fd = -1 then
    { session := none, openFds := openFds }
  else
    let openFds := fd :: openFds
    -- `int wc = inet_pton (AF_INET, server_ip, &ip_addr.s_addr); if (!wc) return NULL`
    if wc = 0 then
      { session := none, openFds := openFds }
    else
      let dest_addr : SockAddrIn :=
        { sin_family := AF_INET, sin_port := (server_port % 65536).toNat, sin_addr := ip_addr }
      -- `if (!newL2SAP) { close (fd); return NULL; }`
      if mallocOk = false then
        { session := none, openFds := openFds.erase fd }
      else
        { session := some { socket := fd, peer_addr := dest_addr }, openFds := openFds }

/-! ## Reference definitions -/

/-- The checksum as the specification words it: the XOR, as natural numbers, of the
bytes at the indices `0 .. len - 1` other than the offset of the checksum field. -/
def checksum_spec (frame : List Byte) (len : Nat) : Nat :=
  (((List.range len).filter (fun i => i ≠ 6)).map (fun i => (frame.getD i 0).val)).foldr
    (fun b acc => b ^^^ acc) 0

/-- The byte `b` with bit `k` inverted. -/
def flipBit (b : Byte) (k : Fin 8) : Byte := bxor b (toByte (2 ^ k.val))

/-- The first `8 + |P|` bytes `l2sap_sendto` has in `buff` before the checksum is
stored (closed form, see `sendto_eq`). -/
def frameBody (a : InAddr) (P : List Byte) : List Byte :=
  [a.b0, a.b1, a.b2, a.b3, (htons (8 + P.length)).1, (htons (8 + P.length)).2, 0, 0] ++ P

/-- The bytes `l2sap_sendto` passes to `sendto`: `frameBody` with the checksum stored
at its offset. -/
def sentFrame (a : InAddr) (P : List Byte) : List Byte :=
  (frameBody a P).set checksumOffset (checksumLoop (frameBody a P) (8 + P.length))

/-! ## Concrete values used in the examples -/

/-- A session on descriptor 3 whose peer is 10.0.0.1, port 8080. -/
def exClient : L2SAP :=
  { socket := 3, peer_addr := { sin_family := 2, sin_port := 8080, sin_addr := ⟨10, 0, 0, 1⟩ } }

/-- A session on descriptor 4 whose peer is 10.0.0.2, port 8080. -/
def exReceiver : L2SAP :=
  { socket := 4, peer_addr := { sin_family := 2, sin_port := 8080, sin_addr := ⟨10, 0, 0, 2⟩ } }

/-- The sender 192.168.0.7, port 9090. -/
def exSender : SockAddrIn :=
  { sin_family := 2, sin_port := 9090, sin_addr := ⟨192, 168, 0, 7⟩ }

/-! ## Lemmas on bytes and on the checksum loop -/

theorem bxor_val (a b : Byte) : (bxor a b).val = a.val ^^^ b.val := by
  have h : a.val ^^^ b.val < 2 ^ 8 := Nat.xor_lt_two_pow a.isLt b.isLt
  simp only [bxor]
  exact Nat.mod_eq_of_lt h

theorem bxor_comm (a b : Byte) : bxor a b = bxor b a :=
  Fin.ext (by rw [bxor_val, bxor_val, Nat.xor_comm])

theorem bxor_assoc (a b c : Byte) : bxor (bxor a b) c = bxor a (bxor b c) :=
  Fin.ext (by simp only [bxor_val, Nat.xor_assoc])

theorem bxor_self (a : Byte) : bxor a a = 0 :=
  Fin.ext (by simp [bxor_val])

theorem bxor_zero (a : Byte) : bxor a 0 = a :=
  Fin.ext (by simp [bxor_val])

theorem zero_bxor (a : Byte) : bxor 0 a = a :=
  Fin.ext (by simp [bxor_val])

theorem bxor_cancel (a b : Byte) : bxor (bxor a b) b = a := by
  rw [bxor_assoc, bxor_self, bxor_zero]

theorem checksumLoop_zero (frame : List Byte) : checksumLoop frame 0 = 0 := rfl

theorem checksumLoop_succ (frame : List Byte) (n : Nat) :
    checksumLoop frame (n + 1) =
      if n ≠ checksumOffset then bxor (checksumLoop frame n) (frame.getD n 0)
      else checksumLoop frame n := by
  simp only [checksumLoop, List.range_succ, List.foldl_append, List.foldl_cons, List.foldl_nil]

theorem checksumLoop_congr (f g : List Byte) (n : Nat)
    (h : ∀ i, i < n → i ≠ checksumOffset → f.getD i 0 = g.getD i 0) :
    checksumLoop f n = checksumLoop g n := by
  induction n with
  | zero => rfl
  | succ n ih =>
    rw [checksumLoop_succ, checksumLoop_succ, ih (fun i hi hne => h i (by omega) hne)]
    by_cases hn : n = checksumOffset
    · simp [hn]
    · simp only [ne_eq, hn, not_false_eq_true, if_true]
      rw [h n (by omega) hn]

theorem getD_set_ne (f : List Byte) (i j : Nat) (v : Byte) (h : i ≠ j) :
    (f.set i v).getD j 0 = f.getD j 0 := by
  simp [List.getD_eq_getElem?_getD, List.getElem?_set, h]

theorem getD_set_eq (f : List Byte) (i : Nat) (v : Byte) (h : i < f.length) :
    (f.set i v).getD i 0 = v := by
  simp [List.getD_eq_getElem?_getD, List.getElem?_set, h]

theorem getD_take (f : List Byte) (i m : Nat) (h : i < m) :
    (f.take m).getD i 0 = f.getD i 0 := by
  simp [List.getD_eq_getElem?_getD, List.getElem?_take, h]

theorem checksumLoop_set_offset (f : List Byte) (v : Byte) (n : Nat) :
    checksumLoop (f.set checksumOffset v) n = checksumLoop f n :=
  checksumLoop_congr _ _ n (fun i _ hne => getD_set_ne f checksumOffset i v (Ne.symm hne))

theorem checksumLoop_take (f : List Byte) (n m : Nat) (h : n ≤ m) :
    checksumLoop (f.take m) n = checksumLoop f n :=
  checksumLoop_congr _ _ n (fun i hi _ => getD_take f i m (by omega))

theorem checksumLoop_set (f : List Byte) (i : Nat) (b : Byte) (n : Nat)
    (hin : i < n) (hne : i ≠ checksumOffset) (hlen : i < f.length) :
    checksumLoop (f.set i b) n = bxor (bxor (checksumLoop f n) (f.getD i 0)) b := by
  induction n with
  | zero => omega
  | succ n ih =>
    rw [checksumLoop_succ, checksumLoop_succ]
    by_cases hi : i < n
    · rw [ih hi, getD_set_ne f i n b (by omega)]
      by_cases hn : n = checksumOffset
      · simp [hn]
      · simp only [ne_eq, hn, not_false_eq_true, if_true]
        rw [bxor_assoc (bxor _ _) b, bxor_comm b, ← bxor_assoc (bxor _ _),
          bxor_assoc (checksumLoop f n) (f.getD i 0), bxor_comm (f.getD i 0),
          ← bxor_assoc (checksumLoop f n)]
    · have hEq : i = n := by omega
      subst hEq
      have h1 : checksumLoop (f.set i b) i = checksumLoop f i :=
        checksumLoop_congr _ _ i (fun j hj _ => getD_set_ne f i j b (by omega))
      simp only [ne_eq, hne, not_false_eq_true, if_true]
      rw [h1, getD_set_eq f i b hlen, bxor_cancel]



theorem toSizeT_ofNat (n : Nat) (h : n < 2 ^ 64) : toSizeT (n : Int) = n := by
  unfold toSizeT
  omega

theorem toInt32_ofNat (n : Nat) (h : n < 2 ^ 31) : toInt32 n = (n : Int) := by
  unfold toInt32
  omega

theorem buff_before_checksum (a : InAddr) (P : List Byte) (l : Byte × Byte) (k : Nat) :
    memcpyAt (((((((((List.replicate (8 + P.length + k) (0 : Byte)).set 0 a.b0).set 1 a.b1).set 2
      a.b2).set 3 a.b3).set 4 l.1).set 5 l.2).set checksumOffset 0).set 7 0) L2Headersize P P.length
      = [a.b0, a.b1, a.b2, a.b3, l.1, l.2, 0, 0] ++ P ++ List.replicate k 0 := by
  have h : List.replicate (8 + P.length + k) (0 : Byte)
      = 0 :: 0 :: 0 :: 0 :: 0 :: 0 :: 0 :: 0 :: List.replicate (P.length + k) 0 := by
    rw [Nat.add_assoc, List.replicate_add]
    rfl
  rw [h]
  have hset : ∀ t : List Byte,
      ((((((((((0 : Byte) :: 0 :: 0 :: 0 :: 0 :: 0 :: 0 :: 0 :: t).set 0 a.b0).set 1 a.b1).set 2
        a.b2).set 3 a.b3).set 4 l.1).set 5 l.2).set checksumOffset 0).set 7 0)
        = a.b0 :: a.b1 :: a.b2 :: a.b3 :: l.1 :: l.2 :: 0 :: 0 :: t := fun _ => rfl
  rw [hset]
  have hdrop : ∀ (n : Nat) (x1 x2 x3 x4 x5 x6 x7 x8 : Byte) (t : List Byte),
      List.drop (8 + n) (x1 :: x2 :: x3 :: x4 :: x5 :: x6 :: x7 :: x8 :: t) = List.drop n t := by
    intro n x1 x2 x3 x4 x5 x6 x7 x8 t
    rw [Nat.add_comm]
    rfl
  unfold memcpyAt L2Headersize
  rw [hdrop, List.take_length, List.drop_replicate, Nat.add_sub_cancel_left]
  rfl

theorem sendto_eq (F : Nat) (c : L2SAP) (P : List Byte) (wc : Int)
    (hF : 8 + P.length ≤ F) (h31 : F < 2 ^ 31) :
    l2sap_sendto F c P (P.length : Int) wc =
      { client := c, ret := some (if wc = -1 then -1 else 0), copied := some P.length,
        sent := [{ socket := c.socket, bytes := sentFrame c.peer_addr.sin_addr P,
                   dest := c.peer_addr }] } := by
  obtain ⟨k, rfl⟩ : ∃ k, F = 8 + P.length + k := ⟨F - (8 + P.length), by omega⟩
  have ht : toSizeT ((L2Headersize : Int) + (P.length : Int)) = 8 + P.length := by
    have := toSizeT_ofNat (8 + P.length) (by omega)
    simpa [L2Headersize] using this
  have hn : toSizeT (P.length : Int) = P.length := toSizeT_ofNat _ (by omega)
  have hi : toInt32 (8 + P.length) = ((8 + P.length : Nat) : Int) := toInt32_ofNat _ (by omega)
  unfold l2sap_sendto
  simp only [ht, hn, hi]
  rw [if_neg (by omega), if_neg (by unfold L2Headersize; omega)]
  simp only [buff_before_checksum]
  have hb : ([c.peer_addr.sin_addr.b0, c.peer_addr.sin_addr.b1, c.peer_addr.sin_addr.b2,
      c.peer_addr.sin_addr.b3, (htons (8 + P.length)).1, (htons (8 + P.length)).2, 0, 0] ++ P
      ++ List.replicate k 0) = frameBody c.peer_addr.sin_addr P ++ List.replicate k 0 := rfl
  rw [hb]
  have hlen : (frameBody c.peer_addr.sin_addr P).length = 8 + P.length := by
    simp [frameBody]; omega
  have hck : compute_checksum (frameBody c.peer_addr.sin_addr P ++ List.replicate k 0)
      ((8 + P.length : Nat) : Int) = checksumLoop (frameBody c.peer_addr.sin_addr P) (8 + P.length) := by
    unfold compute_checksum
    rw [Int.toNat_ofNat, ← checksumLoop_take _ (8 + P.length) (8 + P.length) (le_refl _)]
    rw [← hlen, List.take_left]
  rw [hck]
  have htake : ((frameBody c.peer_addr.sin_addr P ++ List.replicate k 0).set checksumOffset
      (checksumLoop (frameBody c.peer_addr.sin_addr P) (8 + P.length))).take (8 + P.length)
      = sentFrame c.peer_addr.sin_addr P := by
    unfold sentFrame
    rw [List.set_append_left _ _ (by rw [hlen]; unfold checksumOffset; omega)]
    have : ((frameBody c.peer_addr.sin_addr P).set checksumOffset
      (checksumLoop (frameBody c.peer_addr.sin_addr P) (8 + P.length))).length = 8 + P.length := by
      rw [List.length_set, hlen]
    exact List.take_left' this
  rw [htake]
  split <;> rfl

theorem frameBody_length (a : InAddr) (P : List Byte) : (frameBody a P).length = 8 + P.length := by
  simp [frameBody]; omega

theorem sentFrame_length (a : InAddr) (P : List Byte) : (sentFrame a P).length = 8 + P.length := by
  rw [sentFrame, List.length_set, frameBody_length]

theorem sentFrame_eq (a : InAddr) (P : List Byte) :
    sentFrame a P = a.b0 :: a.b1 :: a.b2 :: a.b3 :: (htons (8 + P.length)).1 ::
      (htons (8 + P.length)).2 :: checksumLoop (frameBody a P) (8 + P.length) :: 0 :: P := rfl

theorem sentFrame_checksum (a : InAddr) (P : List Byte) :
    checksumLoop (sentFrame a P) (8 + P.length) = (sentFrame a P).getD checksumOffset 0 := by
  rw [sentFrame, checksumLoop_set_offset, getD_set_eq _ _ _ (by rw [frameBody_length]; unfold checksumOffset; omega)]

/-- The receive path once a datagram of more than a header has arrived. -/
theorem recv_long (c : L2SAP) (data : List Byte) (len activity rc : Int) (buf : List Byte)
    (peer : SockAddrIn) (hact : 0 < activity) (hrc : 8 < rc) :
    l2sap_recvfrom_timeout c data len activity rc buf peer =
      if checksumLoop buf rc.toNat ≠ buf.getD checksumOffset 0 then
        { client := c, data := data, ret := -1 }
      else
        { client := { c with peer_addr := peer },
          data := (buf.drop 8).take (toSizeT (rc - 8)) ++ data.drop (toSizeT (rc - 8)),
          ret := rc - 8 } := by
  unfold l2sap_recvfrom_timeout
  rw [if_neg (by omega), if_neg (by omega), if_neg (by omega), if_neg (by simp [L2Headersize]; omega),
    if_neg (by simp [L2Headersize]; omega)]
  simp only [compute_checksum, checksumLoop_set_offset, L2Headersize, memcpyAt, Nat.cast_ofNat,
    List.take_zero, List.nil_append, Nat.zero_add]
  rw [List.drop_set_of_lt (0 : Byte) buf (show checksumOffset < 8 by decide)]

theorem recv_short (c : L2SAP) (data : List Byte) (len activity rc : Int) (buf : List Byte)
    (peer : SockAddrIn) (hact : 0 < activity) (hrc : rc < 8) :
    l2sap_recvfrom_timeout c data len activity rc buf peer =
      { client := c, data := data, ret := -1 } := by
  unfold l2sap_recvfrom_timeout
  rw [if_neg (by omega), if_neg (by omega)]
  by_cases h : rc < 0
  · rw [if_pos h]
  · rw [if_neg h, if_pos (by simp [L2Headersize]; omega)]

theorem recv_header_only (c : L2SAP) (data : List Byte) (len activity : Int) (buf : List Byte)
    (peer : SockAddrIn) (hact : 0 < activity) :
    l2sap_recvfrom_timeout c data len activity 8 buf peer =
      { client := c, data := data, ret := 0 } := by
  unfold l2sap_recvfrom_timeout
  rw [if_neg (by omega), if_neg (by omega), if_neg (by omega), if_neg (by simp [L2Headersize]),
    if_pos (by simp [L2Headersize])]

/-! ## Further lemmas: bit flips, delivery, the reference checksum -/

theorem toByte_pow_ne_zero (k : Fin 8) : toByte (2 ^ k.val) ≠ 0 := by
  revert k
  decide

theorem bxor_ne_self (a m : Byte) (hm : m ≠ 0) : bxor a m ≠ a := by
  intro h
  apply hm
  have h2 : bxor a (bxor a m) = bxor a a := by rw [h]
  rwa [← bxor_assoc, bxor_self, zero_bxor] at h2

theorem bxor_swap_cancel (c x m : Byte) : bxor (bxor c x) (bxor x m) = bxor c m := by
  rw [bxor_assoc, ← bxor_assoc x x m, bxor_self, zero_bxor]

theorem recv_pos (c : L2SAP) (out : List Byte) (len activity rc : Int) (buf : List Byte)
    (peer : SockAddrIn)
    (h : 0 < (l2sap_recvfrom_timeout c out len activity rc buf peer).ret) :
    0 < activity ∧ 8 < rc ∧ checksumLoop buf rc.toNat = buf.getD checksumOffset 0 := by
  have hact : 0 < activity := by
    by_contra hn
    unfold l2sap_recvfrom_timeout at h
    by_cases h1 : activity < 0
    · rw [if_pos h1] at h; simp at h
    · rw [if_neg h1, if_pos (by omega)] at h; simp [L2_TIMEOUT] at h
  have hrc : 8 < rc := by
    by_contra hn
    by_cases h8 : rc = 8
    · subst h8
      rw [recv_header_only c out len activity buf peer hact] at h
      simp at h
    · rw [recv_short c out len activity rc buf peer hact (by omega)] at h
      simp at h
  refine ⟨hact, hrc, ?_⟩
  by_contra hn
  rw [recv_long c out len activity rc buf peer hact hrc, if_pos hn] at h
  simp at h

theorem foldr_xor_init (l : List Nat) (x : Nat) :
    l.foldr (fun b acc => b ^^^ acc) x = l.foldr (fun b acc => b ^^^ acc) 0 ^^^ x := by
  induction l with
  | nil => simp
  | cons a t ih => simp only [List.foldr_cons, ih, Nat.xor_assoc]

theorem checksum_spec_succ (frame : List Byte) (n : Nat) :
    checksum_spec frame (n + 1) =
      if n ≠ 6 then checksum_spec frame n ^^^ (frame.getD n 0).val else checksum_spec frame n := by
  unfold checksum_spec
  rw [List.range_succ, List.filter_append, List.map_append, List.foldr_append]
  by_cases hn : n = 6
  · simp [hn]
  · simp only [ne_eq, hn, not_false_eq_true, decide_True, List.filter_cons_of_pos,
      List.filter_nil, List.map_cons, List.map_nil, List.foldr_cons, List.foldr_nil,
      Nat.xor_zero, if_true]
    rw [foldr_xor_init]

theorem checksumLoop_val (frame : List Byte) (n : Nat) :
    (checksumLoop frame n).val = checksum_spec frame n := by
  induction n with
  | zero => rfl
  | succ n ih =>
    rw [checksumLoop_succ, checksum_spec_succ]
    by_cases hn : n = 6
    · subst hn
      simpa [checksumOffset] using ih
    · simp only [ne_eq, hn, not_false_eq_true, if_true, checksumOffset, bxor_val, ih]

theorem getD_append_left (l : List Byte) (x : Byte) (i : Nat) (h : i < l.length) :
    (l ++ [x]).getD i 0 = l.getD i 0 := by
  simp [List.getD_eq_getElem?_getD, List.getElem?_append_left h]

theorem getD_append_length (l : List Byte) (x : Byte) : (l ++ [x]).getD l.length 0 = x := by
  simp [List.getD_eq_getElem?_getD]

theorem checksumLoop_eq_foldl (f : List Byte) :
    checksumLoop f f.length = (f.eraseIdx checksumOffset).foldl bxor 0 := by
  induction f using List.reverseRecOn with
  | nil => rfl
  | append_singleton l x ih =>
    rw [List.length_append, List.length_singleton, checksumLoop_succ,
      checksumLoop_congr (l ++ [x]) l l.length (fun i hi _ => getD_append_left l x i hi), ih,
      getD_append_length]
    by_cases h6 : l.length = checksumOffset
    · rw [if_neg (by simp [h6]), List.eraseIdx_append_of_length_le (by omega), h6,
        Nat.sub_self, List.eraseIdx_of_length_le (by omega)]
      simp
    · rw [if_pos h6]
      by_cases hlt : checksumOffset < l.length
      · rw [List.eraseIdx_append_of_lt_length hlt, List.foldl_append]
        rfl
      · rw [List.eraseIdx_of_length_le (by omega),
          List.eraseIdx_of_length_le (by rw [List.length_append, List.length_singleton]; omega),
          List.foldl_append]
        rfl

theorem htons_decode (n : Nat) (h : n < 65536) :
    (htons n).1.val * 256 + (htons n).2.val = n := by
  simp only [htons, toByte]
  omega

/-! ## Lemmas on the outcomes of a receive call -/

theorem recv_no_activity (c : L2SAP) (data : List Byte) (len activity rc : Int) (buf : List Byte)
    (peer : SockAddrIn) (hact : activity ≤ 0) :
    l2sap_recvfrom_timeout c data len activity rc buf peer =
      { client := c, data := data, ret := if activity < 0 then -1 else 0 } := by
  unfold l2sap_recvfrom_timeout
  by_cases h : activity < 0
  · rw [if_pos h, if_pos h]
  · rw [if_neg h, if_neg h, if_pos (by omega)]
    rfl

/-- The four ways a call of `l2sap_recvfrom_timeout` can end. -/
theorem recv_cases (c : L2SAP) (data : List Byte) (len activity rc : Int) (buf : List Byte)
    (peer : SockAddrIn) :
    (activity < 0 ∧ l2sap_recvfrom_timeout c data len activity rc buf peer
        = { client := c, data := data, ret := -1 }) ∨
    (activity = 0 ∧ l2sap_recvfrom_timeout c data len activity rc buf peer
        = { client := c, data := data, ret := 0 }) ∨
    (0 < activity ∧ rc < 8 ∧ l2sap_recvfrom_timeout c data len activity rc buf peer
        = { client := c, data := data, ret := -1 }) ∨
    (0 < activity ∧ rc = 8 ∧ l2sap_recvfrom_timeout c data len activity rc buf peer
        = { client := c, data := data, ret := 0 }) ∨
    (0 < activity ∧ 8 < rc ∧ checksumLoop buf rc.toNat ≠ buf.getD checksumOffset 0 ∧
      l2sap_recvfrom_timeout c data len activity rc buf peer
        = { client := c, data := data, ret := -1 }) ∨
    (0 < activity ∧ 8 < rc ∧ checksumLoop buf rc.toNat = buf.getD checksumOffset 0 ∧
      l2sap_recvfrom_timeout c data len activity rc buf peer
        = { client := { c with peer_addr := peer },
            data := (buf.drop 8).take (toSizeT (rc - 8)) ++ data.drop (toSizeT (rc - 8)),
            ret := rc - 8 }) := by
  rcases lt_trichotomy activity 0 with h | h | h
  · left
    refine ⟨h, ?_⟩
    rw [recv_no_activity c data len activity rc buf peer (by omega), if_pos h]
  · right; left
    refine ⟨h, ?_⟩
    rw [recv_no_activity c data len activity rc buf peer (by omega), if_neg (by omega)]
  · rcases lt_trichotomy rc 8 with h8 | h8 | h8
    · right; right; left
      exact ⟨h, h8, recv_short c data len activity rc buf peer h h8⟩
    · right; right; right; left
      subst h8
      exact ⟨h, rfl, recv_header_only c data len activity buf peer h⟩
    · by_cases hck : checksumLoop buf rc.toNat = buf.getD checksumOffset 0
      · right; right; right; right; right
        refine ⟨h, h8, hck, ?_⟩
        rw [recv_long c data len activity rc buf peer h h8, if_neg (by simp [hck])]
      · right; right; right; right; left
        refine ⟨h, h8, hck, ?_⟩
        rw [recv_long c data len activity rc buf peer h h8, if_pos hck]

theorem bxor_eq_zero (x v : Byte) (h : bxor x v = 0) : x = v := by
  have h2 : bxor (bxor x v) v = bxor 0 v := by rw [h]
  rwa [bxor_cancel, zero_bxor] at h2

theorem bxor_replace_eq (c x v : Byte) (h : bxor (bxor c x) v = c) : x = v := by
  apply bxor_eq_zero
  by_contra hne
  exact bxor_ne_self c (bxor x v) hne (by rw [← bxor_assoc]; exact h)

theorem bxor_double_flip (c x y m : Byte) :
    bxor (bxor (bxor (bxor c x) (bxor x m)) y) (bxor y m) = c := by
  rw [bxor_swap_cancel c x m, bxor_swap_cancel (bxor c m) y m, bxor_cancel]

theorem toSizeT_sub_header (n : Nat) (h8 : 8 < n) (h : (n : Int) < 2 ^ 31) :
    toSizeT ((n : Int) - 8) = n - 8 := by
  unfold toSizeT
  omega

/-! ## The claims -/

/-- Claim C1, round trip. For every session, every payload `P` with `8 + |P| ≤ L2Framesize`
and every output buffer with room for `|P|` bytes, `l2sap_sendto` hands exactly one
buffer of `8 + |P|` bytes to the transport, and `l2sap_recvfrom_timeout`, given that
buffer as the received datagram (`rc = 8 + |P|`), returns `|P|` and leaves `P` in the
first `|P|` bytes of the output buffer, whose size is unchanged. -/
theorem roundtrip_sendto_recvfrom (L2Framesize : Nat) (client receiver : L2SAP) (P out : List Byte)
    (wc len activity : Int) (peer : SockAddrIn)
    (hsize : 8 + P.length ≤ L2Framesize) (hint : L2Framesize < 2 ^ 31)
    (hact : 0 < activity) (hcap : P.length ≤ out.length) :
    ∃ frame : List Byte,
      (l2sap_sendto L2Framesize client P (P.length : Int) wc).sent
        = [{ socket := client.socket, bytes := frame, dest := client.peer_addr }] ∧
      frame.length = 8 + P.length ∧
      (l2sap_recvfrom_timeout receiver out len activity (frame.length : Int) frame peer).ret
        = (P.length : Int) ∧
      (l2sap_recvfrom_timeout receiver out len activity (frame.length : Int) frame peer).data.take
        P.length = P ∧
      (l2sap_recvfrom_timeout receiver out len activity (frame.length : Int) frame peer).data.length
        = out.length := by
  refine ⟨sentFrame client.peer_addr.sin_addr P, ?_, sentFrame_length _ _, ?_⟩
  · rw [sendto_eq L2Framesize client P wc hsize hint]
  · rw [sentFrame_length]
    cases P with
    | nil =>
      have h := recv_header_only receiver out len activity (sentFrame client.peer_addr.sin_addr [])
        peer hact
      simp only [List.length_nil, Nat.add_zero, Nat.cast_ofNat, List.take_zero, Nat.cast_zero]
      rw [h]
      exact ⟨rfl, trivial, rfl⟩
    | cons p t =>
      have hrc : (8 : Int) < ((8 + (p :: t).length : Nat) : Int) := by
        simp only [List.length_cons]; omega
      rw [recv_long receiver out len activity _ _ peer hact hrc, Int.toNat_ofNat,
        sentFrame_checksum, if_neg (by simp)]
      have hsz : toSizeT (((8 + (p :: t).length : Nat) : Int) - 8) = (p :: t).length := by
        unfold toSizeT
        omega
      refine ⟨by simp, ?_⟩
      simp only [hsz]
      rw [sentFrame_eq]
      constructor
      · simp
      · simp only [List.drop_succ_cons, List.drop_zero, List.take_length, List.length_append,
          List.length_drop]
        omega


theorem roundtrip_sendto_recvfrom_witness :
    (8 + ([1, 2, 3] : List Byte).length ≤ 1024 ∧ 1024 < 2 ^ 31 ∧ (0 : Int) < 1 ∧
      ([1, 2, 3] : List Byte).length ≤ ([0, 0, 0, 0] : List Byte).length) ∧
    ∃ frame : List Byte,
      (l2sap_sendto 1024 exClient [1, 2, 3] (([1, 2, 3] : List Byte).length : Int) 0).sent
        = [{ socket := exClient.socket, bytes := frame, dest := exClient.peer_addr }] ∧
      frame.length = 8 + ([1, 2, 3] : List Byte).length ∧
      (l2sap_recvfrom_timeout exReceiver [0, 0, 0, 0] 4 1 (frame.length : Int) frame exSender).ret
        = (([1, 2, 3] : List Byte).length : Int) ∧
      (l2sap_recvfrom_timeout exReceiver [0, 0, 0, 0] 4 1 (frame.length : Int) frame
        exSender).data.take ([1, 2, 3] : List Byte).length = [1, 2, 3] ∧
      (l2sap_recvfrom_timeout exReceiver [0, 0, 0, 0] 4 1 (frame.length : Int) frame
        exSender).data.length = ([0, 0, 0, 0] : List Byte).length :=
  ⟨by decide,
    roundtrip_sendto_recvfrom 1024 exClient exReceiver [1, 2, 3] [0, 0, 0, 0] 0 4 1 exSender
      (by decide) (by decide) (by decide) (by decide)⟩

/-- Claim C2 as stated fails on a frame without payload: the frame `l2sap_sendto`
builds for the empty payload has 8 bytes, and `l2sap_recvfrom_timeout` returns 0 for
every datagram of 8 bytes without looking at its checksum, here with bit 0 of byte 0
inverted. -/
theorem corruption_header_only_counterexample :
    (l2sap_sendto 1024 exClient [] 0 0).sent
      = [{ socket := 3, bytes := [10, 0, 0, 1, 0, 8, 3, 0], dest := exClient.peer_addr }] ∧
    (l2sap_recvfrom_timeout exReceiver [] 0 1 8
      (([10, 0, 0, 1, 0, 8, 3, 0] : List Byte).set 0 (flipBit 10 0)) exSender).ret = 0 ∧
    (l2sap_recvfrom_timeout exReceiver [] 0 1 8
      (([10, 0, 0, 1, 0, 8, 3, 0] : List Byte).set 0 (flipBit 10 0)) exSender).ret ≠ -1 := by
  decide

/-- Claim C2, amended to frames with a payload: for every frame `l2sap_sendto` builds
with `1 ≤ |P|` and `8 + |P| ≤ L2Framesize`, every byte index `i ≠ 6` of the frame and
every bit `k`, `l2sap_recvfrom_timeout` given the frame with bit `k` of byte `i`
inverted returns -1 and changes neither the output buffer nor the session. -/
theorem corruption_detected_with_payload (L2Framesize : Nat) (client receiver : L2SAP)
    (P out : List Byte) (wc len activity : Int) (peer : SockAddrIn) (i : Nat) (k : Fin 8)
    (hpayload : 1 ≤ P.length) (hsize : 8 + P.length ≤ L2Framesize) (hint : L2Framesize < 2 ^ 31)
    (hact : 0 < activity) (hi : i < 8 + P.length) (hne : i ≠ 6) :
    ∃ frame : List Byte,
      (l2sap_sendto L2Framesize client P (P.length : Int) wc).sent
        = [{ socket := client.socket, bytes := frame, dest := client.peer_addr }] ∧
      l2sap_recvfrom_timeout receiver out len activity (frame.length : Int)
          (frame.set i (flipBit (frame.getD i 0) k)) peer
        = { client := receiver, data := out, ret := -1 } := by
  refine ⟨sentFrame client.peer_addr.sin_addr P, ?_, ?_⟩
  · rw [sendto_eq L2Framesize client P wc hsize hint]
  · have hlen := sentFrame_length client.peer_addr.sin_addr P
    rw [recv_long receiver out len activity _ _ peer hact (by rw [hlen]; omega), Int.toNat_ofNat,
      hlen, checksumLoop_set _ i _ _ hi hne (by rw [hlen]; exact hi),
      getD_set_ne _ i checksumOffset _ hne, sentFrame_checksum, flipBit, bxor_swap_cancel]
    rw [if_pos (bxor_ne_self _ _ (toByte_pow_ne_zero k))]

theorem corruption_detected_with_payload_witness :
    (1 ≤ ([1, 2, 3, 4] : List Byte).length ∧ 8 + ([1, 2, 3, 4] : List Byte).length ≤ 1024 ∧
      1024 < 2 ^ 31 ∧ (0 : Int) < 1 ∧ 9 < 8 + ([1, 2, 3, 4] : List Byte).length ∧ 9 ≠ 6) ∧
    ∃ frame : List Byte,
      (l2sap_sendto 1024 exClient [1, 2, 3, 4] (([1, 2, 3, 4] : List Byte).length : Int) 0).sent
        = [{ socket := exClient.socket, bytes := frame, dest := exClient.peer_addr }] ∧
      l2sap_recvfrom_timeout exReceiver [9, 9, 9, 9] 4 1 (frame.length : Int)
          (frame.set 9 (flipBit (frame.getD 9 0) 2)) exSender
        = { client := exReceiver, data := [9, 9, 9, 9], ret := -1 } :=
  ⟨by decide,
    corruption_detected_with_payload 1024 exClient exReceiver [1, 2, 3, 4] [9, 9, 9, 9] 0 4 1
      exSender 9 2 (by decide) (by decide) (by decide) (by decide) (by decide) (by decide)⟩

/-- Claim C3, size boundary of `l2sap_sendto`: for every `int` length `len`, if
`8 + len > L2Framesize` the call returns -1 and hands nothing to the transport; if
`0 ≤ len` and `8 + len ≤ L2Framesize` exactly one datagram is handed to the transport
and the call returns 0 unless the transport reports -1. -/
theorem sendto_size_boundary (L2Framesize : Nat) (client : L2SAP) (data : List Byte)
    (len wc : Int) (hlen : len < 2 ^ 31) :
    ((L2Framesize : Int) < 8 + len →
      (l2sap_sendto L2Framesize client data len wc).ret = some (-1) ∧
      (l2sap_sendto L2Framesize client data len wc).sent = []) ∧
    (0 ≤ len → 8 + len ≤ (L2Framesize : Int) →
      (l2sap_sendto L2Framesize client data len wc).sent.length = 1 ∧
      (wc ≠ -1 → (l2sap_sendto L2Framesize client data len wc).ret = some 0)) := by
  constructor
  · intro h
    have ht : toSizeT ((L2Headersize : Int) + len) > L2Framesize := by
      unfold toSizeT L2Headersize
      omega
    unfold l2sap_sendto
    simp only [if_pos ht, and_self]
  · intro h0 h
    have ht : ¬ toSizeT ((L2Headersize : Int) + len) > L2Framesize := by
      unfold toSizeT L2Headersize
      omega
    have hfit : ¬ L2Headersize + toSizeT len > L2Framesize := by
      unfold toSizeT L2Headersize
      omega
    unfold l2sap_sendto
    simp only [if_neg ht, if_neg hfit]
    constructor
    · split <;> rfl
    · intro hwc
      rw [if_neg hwc]

theorem sendto_size_boundary_witness :
    ((1017 : Int) < 2 ^ 31 ∧ ((1024 : Nat) : Int) < 8 + 1017 ∧
      (l2sap_sendto 1024 exClient [] 1017 0).ret = some (-1) ∧
      (l2sap_sendto 1024 exClient [] 1017 0).sent = []) ∧
    ((1016 : Int) < 2 ^ 31 ∧ (0 : Int) ≤ 1016 ∧ (8 : Int) + 1016 ≤ ((1024 : Nat) : Int) ∧
      (0 : Int) ≠ -1 ∧
      (l2sap_sendto 1024 exClient (List.replicate 1016 7) 1016 0).sent.length = 1 ∧
      (l2sap_sendto 1024 exClient (List.replicate 1016 7) 1016 0).ret = some 0) :=
  ⟨⟨by decide, by decide,
      (sendto_size_boundary 1024 exClient [] 1017 0 (by decide)).1 (by decide)⟩,
    ⟨by decide, by decide, by decide, by decide,
      ((sendto_size_boundary 1024 exClient (List.replicate 1016 7) 1016 0 (by decide)).2
        (by decide) (by decide)).1,
      ((sendto_size_boundary 1024 exClient (List.replicate 1016 7) 1016 0 (by decide)).2
        (by decide) (by decide)).2 (by decide)⟩⟩

/-- Claim C4 fails on the code: `l2sap_recvfrom_timeout` never reads `len`. With a
capacity of 2 and a valid datagram of 12 bytes it returns 4 and writes 4 bytes, so
the bytes at the indices 2 and 3 of the output buffer are overwritten. -/
theorem recv_ignores_capacity :
    l2sap_recvfrom_timeout exReceiver [9, 9, 9, 9] 2 1 12
        [10, 0, 0, 1, 0, 12, 3, 0, 1, 2, 3, 4] exSender
      = { client := { socket := 4, peer_addr := exSender }, data := [1, 2, 3, 4], ret := 4 } := by
  decide

/-- Claim C5 fails on the code: a valid header-only datagram (8 bytes, checksum 0) from
`exSender` makes `l2sap_recvfrom_timeout` return 0 at the exit for `rc == L2Headersize`,
before the peer is stored; the session keeps the peer it had and the next `l2sap_sendto`
still goes to that peer. The path for `rc > L2Headersize` does store the sender. -/
theorem peer_not_learned_header_only :
    l2sap_recvfrom_timeout exReceiver [] 0 1 8 [10, 0, 0, 2, 0, 8, 0, 0] exSender
      = { client := exReceiver, data := [], ret := 0 } ∧
    (l2sap_recvfrom_timeout exReceiver [] 0 1 8 [10, 0, 0, 2, 0, 8, 0, 0] exSender).client.peer_addr
      ≠ exSender ∧
    (l2sap_sendto 1024
      (l2sap_recvfrom_timeout exReceiver [] 0 1 8 [10, 0, 0, 2, 0, 8, 0, 0] exSender).client
      [] 0 0).sent
      = [{ socket := 4, bytes := [10, 0, 0, 2, 0, 8, 0, 0], dest := exReceiver.peer_addr }] := by
  decide

/-- Peer learning on the path of a datagram with a payload: whenever
`l2sap_recvfrom_timeout` returns a positive count (a datagram of more than 8 bytes was delivered), the session's
peer is the sender of that datagram, the descriptor is unchanged, and the next
`l2sap_sendto` writes the sender's four address bytes at the start of the frame and
hands the frame to the transport for that sender. -/
theorem peer_learning (L2Framesize : Nat) (client : L2SAP) (out P : List Byte)
    (len activity rc wc : Int) (buf : List Byte) (peer : SockAddrIn)
    (hdelivered : 0 < (l2sap_recvfrom_timeout client out len activity rc buf peer).ret)
    (hsize : 8 + P.length ≤ L2Framesize) (hint : L2Framesize < 2 ^ 31) :
    (l2sap_recvfrom_timeout client out len activity rc buf peer).client
      = { socket := client.socket, peer_addr := peer } ∧
    ∃ hi lo ck : Byte,
      (l2sap_sendto L2Framesize (l2sap_recvfrom_timeout client out len activity rc buf peer).client
        P (P.length : Int) wc).sent
        = [{ socket := client.socket,
             bytes := peer.sin_addr.b0 :: peer.sin_addr.b1 :: peer.sin_addr.b2 ::
               peer.sin_addr.b3 :: hi :: lo :: ck :: 0 :: P,
             dest := peer }] := by
  obtain ⟨hact, hrc, hck⟩ := recv_pos client out len activity rc buf peer hdelivered
  have hc : (l2sap_recvfrom_timeout client out len activity rc buf peer).client
      = { socket := client.socket, peer_addr := peer } := by
    rw [recv_long client out len activity rc buf peer hact hrc, if_neg (by simp [hck])]
  refine ⟨hc, ?_⟩
  rw [hc, sendto_eq L2Framesize _ P wc hsize hint]
  exact ⟨_, _, _, rfl⟩

theorem peer_learning_witness :
    ((0 : Int) < (l2sap_recvfrom_timeout exReceiver [0, 0, 0, 0] 4 1 12
        [10, 0, 0, 1, 0, 12, 3, 0, 1, 2, 3, 4] exSender).ret ∧
      8 + ([7] : List Byte).length ≤ 1024 ∧ 1024 < 2 ^ 31) ∧
    (l2sap_recvfrom_timeout exReceiver [0, 0, 0, 0] 4 1 12
        [10, 0, 0, 1, 0, 12, 3, 0, 1, 2, 3, 4] exSender).client
      = { socket := exReceiver.socket, peer_addr := exSender } ∧
    ∃ hi lo ck : Byte,
      (l2sap_sendto 1024 (l2sap_recvfrom_timeout exReceiver [0, 0, 0, 0] 4 1 12
          [10, 0, 0, 1, 0, 12, 3, 0, 1, 2, 3, 4] exSender).client
        [7] (([7] : List Byte).length : Int) 0).sent
        = [{ socket := exReceiver.socket,
             bytes := exSender.sin_addr.b0 :: exSender.sin_addr.b1 :: exSender.sin_addr.b2 ::
               exSender.sin_addr.b3 :: hi :: lo :: ck :: 0 :: [7],
             dest := exSender }] :=
  ⟨by decide,
    peer_learning 1024 exReceiver [0, 0, 0, 0] [7] 4 1 12 0
      [10, 0, 0, 1, 0, 12, 3, 0, 1, 2, 3, 4] exSender (by decide) (by decide) (by decide)⟩

/-- Claim C6 as stated fails: the byte at index 6 is the stored checksum the recomputed
one is compared with. A valid datagram of 12 bytes is delivered (4 bytes), and the same
datagram with byte 6 replaced by 0 is rejected with -1. -/
theorem checksum_field_counterexample :
    (l2sap_recvfrom_timeout exReceiver [0, 0, 0, 0] 4 1 12
      [10, 0, 0, 1, 0, 12, 3, 0, 1, 2, 3, 4] exSender).ret = 4 ∧
    (l2sap_recvfrom_timeout exReceiver [0, 0, 0, 0] 4 1 12
      (([10, 0, 0, 1, 0, 12, 3, 0, 1, 2, 3, 4] : List Byte).set 6 0) exSender).ret = -1 := by
  decide

/-- Claim C6, amended: replacing the byte at index 6 by `v` does not change the checksum
`l2sap_recvfrom_timeout` recomputes; a datagram of more than 8 bytes is then delivered
if and only if `v` equals that recomputed checksum; for `rc ≤ 8` the call does not
depend on the byte. -/
theorem checksum_field_decides (client : L2SAP) (out : List Byte) (len activity rc : Int)
    (buf : List Byte) (peer : SockAddrIn) (v : Byte)
    (hact : 0 < activity) (hbuf : 6 < buf.length) :
    compute_checksum ((buf.set 6 v).set 6 0) rc = compute_checksum (buf.set 6 0) rc ∧
    (8 < rc →
      ((l2sap_recvfrom_timeout client out len activity rc (buf.set 6 v) peer).ret ≠ -1 ↔
        v = compute_checksum (buf.set 6 0) rc)) ∧
    (rc ≤ 8 →
      l2sap_recvfrom_timeout client out len activity rc (buf.set 6 v) peer
        = l2sap_recvfrom_timeout client out len activity rc buf peer) := by
  refine ⟨by rw [List.set_set], ?_, ?_⟩
  · intro hrc
    have hget : (buf.set 6 v).getD checksumOffset 0 = v := getD_set_eq buf 6 v hbuf
    have hck : checksumLoop (buf.set 6 v) rc.toNat = compute_checksum (buf.set 6 0) rc := by
      unfold compute_checksum
      rw [show (6 : Nat) = checksumOffset from rfl, checksumLoop_set_offset,
        checksumLoop_set_offset]
    rw [recv_long client out len activity rc _ peer hact hrc, hget, hck]
    by_cases hv : v = compute_checksum (buf.set 6 0) rc
    · rw [if_neg (by simp [hv])]
      simp only [hv, iff_true]
      omega
    · rw [if_pos (by simpa [eq_comm] using hv)]
      simp [hv]
  · intro hrc
    by_cases h8 : rc = 8
    · subst h8
      rw [recv_header_only _ _ _ _ _ _ hact, recv_header_only _ _ _ _ _ _ hact]
    · rw [recv_short _ _ _ _ _ _ _ hact (by omega), recv_short _ _ _ _ _ _ _ hact (by omega)]

theorem checksum_field_decides_witness :
    ((0 : Int) < 1 ∧ 6 < ([10, 0, 0, 1, 0, 12, 3, 0, 1, 2, 3, 4] : List Byte).length ∧
      (8 : Int) < 12) ∧
    ((l2sap_recvfrom_timeout exReceiver [0, 0, 0, 0] 4 1 12
        (([10, 0, 0, 1, 0, 12, 3, 0, 1, 2, 3, 4] : List Byte).set 6 5) exSender).ret ≠ -1 ↔
      (5 : Byte) = compute_checksum
        (([10, 0, 0, 1, 0, 12, 3, 0, 1, 2, 3, 4] : List Byte).set 6 0) 12) :=
  ⟨by decide,
    (checksum_field_decides exReceiver [0, 0, 0, 0] 4 1 12
      [10, 0, 0, 1, 0, 12, 3, 0, 1, 2, 3, 4] exSender 5 (by decide) (by decide)).2.1 (by decide)⟩

/-- Claim C7, `compute_checksum` against its reference definition: for every buffer and
every `len ≥ 0`, the value of `compute_checksum (frame, len)` is the XOR of the bytes at
the indices `0 .. len - 1` other than 6 (`checksum_spec`), and it is 0 for `len = 0`,
when there is no such index. Bytes past the end of the buffer read as 0 on both sides,
so the equation needs no bound on `len`. -/
theorem compute_checksum_eq_spec (frame : List Byte) (len : Nat) :
    (compute_checksum frame (len : Int)).val = checksum_spec frame len ∧
    compute_checksum frame 0 = 0 := by
  constructor
  · unfold compute_checksum
    rw [Int.toNat_ofNat]
    exact checksumLoop_val frame len
  · rfl

/-- Claim C8, position independence: overwriting index 6 of a buffer with any byte `v`
leaves `compute_checksum` unchanged, for every `len`; and the frame `l2sap_sendto`
hands to the transport for a payload `P` with `8 + |P| ≤ L2Framesize` has `8 + |P|`
bytes and carries at index 6 the value of `compute_checksum` over that very frame and
its `8 + |P|` bytes. -/
theorem checksum_position_independent (buf : List Byte) (len : Int) (v : Byte)
    (L2Framesize : Nat) (client : L2SAP) (P : List Byte) (wc : Int)
    (hsize : 8 + P.length ≤ L2Framesize) (hint : L2Framesize < 2 ^ 31) :
    compute_checksum (buf.set 6 v) len = compute_checksum buf len ∧
    ∃ frame : List Byte,
      (l2sap_sendto L2Framesize client P (P.length : Int) wc).sent
        = [{ socket := client.socket, bytes := frame, dest := client.peer_addr }] ∧
      frame.length = 8 + P.length ∧
      frame.getD 6 0 = compute_checksum frame ((8 + P.length : Nat) : Int) := by
  refine ⟨checksumLoop_set_offset buf v len.toNat, sentFrame client.peer_addr.sin_addr P, ?_,
    sentFrame_length _ _, ?_⟩
  · rw [sendto_eq L2Framesize client P wc hsize hint]
  · unfold compute_checksum
    rw [Int.toNat_ofNat]
    exact (sentFrame_checksum client.peer_addr.sin_addr P).symm

theorem checksum_position_independent_witness :
    (8 + ([1, 2, 3] : List Byte).length ≤ 1024 ∧ 1024 < 2 ^ 31) ∧
    compute_checksum (([5, 6, 7, 8, 9, 10, 11, 12, 13] : List Byte).set 6 200) 9
      = compute_checksum [5, 6, 7, 8, 9, 10, 11, 12, 13] 9 ∧
    ∃ frame : List Byte,
      (l2sap_sendto 1024 exClient [1, 2, 3] (([1, 2, 3] : List Byte).length : Int) 0).sent
        = [{ socket := exClient.socket, bytes := frame, dest := exClient.peer_addr }] ∧
      frame.length = 8 + ([1, 2, 3] : List Byte).length ∧
      frame.getD 6 0 = compute_checksum frame ((8 + ([1, 2, 3] : List Byte).length : Nat) : Int) :=
  ⟨by decide,
    checksum_position_independent [5, 6, 7, 8, 9, 10, 11, 12, 13] 9 200 1024 exClient [1, 2, 3] 0
      (by decide) (by decide)⟩

/-- Claim C9, wire format: for every session and every payload `P` of `n` bytes with
`8 + n ≤ L2Framesize` (and `L2Framesize` below `2 ^ 16`, the range of the length field),
`l2sap_sendto` hands to the transport, for the session's peer, one datagram of `8 + n`
bytes: the four address bytes of the peer, the two bytes of `n + 8` in big-endian order,
the XOR of all the other bytes, a zero byte, and then the payload. -/
theorem sendto_wire_format (L2Framesize : Nat) (client : L2SAP) (P : List Byte) (wc : Int)
    (hsize : 8 + P.length ≤ L2Framesize) (hfield : L2Framesize < 2 ^ 16) :
    ∃ hi lo ck : Byte,
      (l2sap_sendto L2Framesize client P (P.length : Int) wc).sent
        = [{ socket := client.socket,
             bytes := client.peer_addr.sin_addr.b0 :: client.peer_addr.sin_addr.b1 ::
               client.peer_addr.sin_addr.b2 :: client.peer_addr.sin_addr.b3 ::
               hi :: lo :: ck :: 0 :: P,
             dest := client.peer_addr }] ∧
      (client.peer_addr.sin_addr.b0 :: client.peer_addr.sin_addr.b1 ::
        client.peer_addr.sin_addr.b2 :: client.peer_addr.sin_addr.b3 ::
        hi :: lo :: ck :: 0 :: P).length = 8 + P.length ∧
      hi.val * 256 + lo.val = P.length + 8 ∧
      ck = (client.peer_addr.sin_addr.b0 :: client.peer_addr.sin_addr.b1 ::
        client.peer_addr.sin_addr.b2 :: client.peer_addr.sin_addr.b3 ::
        hi :: lo :: 0 :: P).foldl bxor 0 := by
  refine ⟨(htons (8 + P.length)).1, (htons (8 + P.length)).2,
    checksumLoop (frameBody client.peer_addr.sin_addr P) (8 + P.length), ?_, ?_, ?_, ?_⟩
  · rw [sendto_eq L2Framesize client P wc hsize (by omega), sentFrame_eq]
  · simp only [List.length_cons]
    omega
  · rw [htons_decode _ (by omega)]
    omega
  · have h := checksumLoop_eq_foldl (frameBody client.peer_addr.sin_addr P)
    rw [frameBody_length] at h
    rw [h]
    rfl

theorem sendto_wire_format_witness :
    (8 + ([1, 2, 3] : List Byte).length ≤ 1024 ∧ 1024 < 2 ^ 16) ∧
    ∃ hi lo ck : Byte,
      (l2sap_sendto 1024 exClient [1, 2, 3] (([1, 2, 3] : List Byte).length : Int) 0).sent
        = [{ socket := exClient.socket,
             bytes := exClient.peer_addr.sin_addr.b0 :: exClient.peer_addr.sin_addr.b1 ::
               exClient.peer_addr.sin_addr.b2 :: exClient.peer_addr.sin_addr.b3 ::
               hi :: lo :: ck :: 0 :: [1, 2, 3],
             dest := exClient.peer_addr }] ∧
      (exClient.peer_addr.sin_addr.b0 :: exClient.peer_addr.sin_addr.b1 ::
        exClient.peer_addr.sin_addr.b2 :: exClient.peer_addr.sin_addr.b3 ::
        hi :: lo :: ck :: 0 :: [1, 2, 3]).length = 8 + ([1, 2, 3] : List Byte).length ∧
      hi.val * 256 + lo.val = ([1, 2, 3] : List Byte).length + 8 ∧
      ck = (exClient.peer_addr.sin_addr.b0 :: exClient.peer_addr.sin_addr.b1 ::
        exClient.peer_addr.sin_addr.b2 :: exClient.peer_addr.sin_addr.b3 ::
        hi :: lo :: 0 :: [1, 2, 3]).foldl bxor 0 :=
  ⟨by decide, sendto_wire_format 1024 exClient [1, 2, 3] 0 (by decide) (by decide)⟩

/-- Claim C10, short-frame rejection: when a datagram has arrived (`select` returned a
positive value) and `recvfrom` reports fewer than 8 bytes, `l2sap_recvfrom_timeout`
returns -1 whatever the bytes are, and changes neither the output buffer nor the
session. -/
theorem short_frame_rejected (client : L2SAP) (out : List Byte) (len activity rc : Int)
    (buf : List Byte) (peer : SockAddrIn)
    (hact : 0 < activity) (hrc0 : 0 ≤ rc) (hrc : rc < 8) :
    l2sap_recvfrom_timeout client out len activity rc buf peer
      = { client := client, data := out, ret := -1 } := by
  unfold l2sap_recvfrom_timeout
  rw [if_neg (by omega), if_neg (by omega), if_neg (by omega),
    if_pos (by simp only [L2Headersize, Nat.cast_ofNat]; exact hrc)]

theorem short_frame_rejected_witness :
    ((0 : Int) < 1 ∧ (0 : Int) ≤ 7 ∧ (7 : Int) < 8) ∧
    l2sap_recvfrom_timeout exReceiver [9, 9] 2 1 7 [10, 0, 0, 2, 0, 7, 5] exSender
      = { client := exReceiver, data := [9, 9], ret := -1 } :=
  ⟨by decide,
    short_frame_rejected exReceiver [9, 9] 2 1 7 [10, 0, 0, 2, 0, 7, 5] exSender
      (by decide) (by decide) (by decide)⟩

/-- Claim C11, a failed or timed-out receive leaves the session alone: whenever the
readiness wait times out (`select` returns 0) or `l2sap_recvfrom_timeout` returns -1,
the socket descriptor and the peer address of the session after the call are those
before the call. -/
theorem failed_receive_keeps_session (client : L2SAP) (out : List Byte) (len activity rc : Int)
    (buf : List Byte) (peer : SockAddrIn)
    (hend : activity = 0 ∨
      (l2sap_recvfrom_timeout client out len activity rc buf peer).ret = -1) :
    (l2sap_recvfrom_timeout client out len activity rc buf peer).client.socket = client.socket ∧
    (l2sap_recvfrom_timeout client out len activity rc buf peer).client.peer_addr
      = client.peer_addr := by
  rcases recv_cases client out len activity rc buf peer with
    ⟨_, h⟩ | ⟨_, h⟩ | ⟨_, _, h⟩ | ⟨_, _, h⟩ | ⟨_, _, _, h⟩ | ⟨ha, h8, _, h⟩
  all_goals first
    | (rw [h]; exact ⟨rfl, rfl⟩)
    | (exfalso
       rw [h] at hend
       rcases hend with h0 | h1
       · omega
       · simp only at h1
         omega)

theorem failed_receive_keeps_session_witness :
    ((1 : Int) = 0 ∨
      (l2sap_recvfrom_timeout exReceiver [9, 9, 9, 9] 4 1 12
        [10, 0, 0, 1, 0, 12, 99, 0, 1, 2, 3, 4] exSender).ret = -1) ∧
    (l2sap_recvfrom_timeout exReceiver [9, 9, 9, 9] 4 1 12
      [10, 0, 0, 1, 0, 12, 99, 0, 1, 2, 3, 4] exSender).client.socket = exReceiver.socket ∧
    (l2sap_recvfrom_timeout exReceiver [9, 9, 9, 9] 4 1 12
      [10, 0, 0, 1, 0, 12, 99, 0, 1, 2, 3, 4] exSender).client.peer_addr
      = exReceiver.peer_addr :=
  ⟨by decide,
    failed_receive_keeps_session exReceiver [9, 9, 9, 9] 4 1 12
      [10, 0, 0, 1, 0, 12, 99, 0, 1, 2, 3, 4] exSender (by decide)⟩

/-- Claim C12, `l2sap_sendto` leaves the session unchanged: for every session, payload
and length, and whichever way the call ends (size error, transport error or success),
the peer address and the socket descriptor of the session after the call are those
before the call. -/
theorem sendto_keeps_session (L2Framesize : Nat) (client : L2SAP) (data : List Byte)
    (len wc : Int) :
    (l2sap_sendto L2Framesize client data len wc).client.peer_addr = client.peer_addr ∧
    (l2sap_sendto L2Framesize client data len wc).client.socket = client.socket := by
  unfold l2sap_sendto
  simp only
  split_ifs <;> exact ⟨rfl, rfl⟩

/-- Claim C13 fails on the code: with the descriptors 0, 1, 2 open, `socket` returning 3
and `inet_pton` returning 0 for an unparsable address, `l2sap_create` returns `NULL` and
descriptor 3 stays open. The path of a failed `malloc` does close it. -/
theorem create_leaks_descriptor_on_bad_address :
    l2sap_create [0, 1, 2] "not-an-address" 8080 3 0 ⟨0, 0, 0, 0⟩ true
      = { session := none, openFds := [3, 0, 1, 2] } ∧
    l2sap_create [0, 1, 2] "10.0.0.1" 8080 3 1 ⟨10, 0, 0, 1⟩ false
      = { session := none, openFds := [0, 1, 2] } := by
  decide

/-- Claim C14, the meaning of the returned value: `l2sap_recvfrom_timeout` returns 0
exactly when the readiness wait timed out or a datagram of exactly 8 bytes was received;
it returns a positive count exactly when a datagram of more than 8 bytes with a matching
checksum was received; it returns -1 exactly on the errors (failed readiness wait,
fewer than 8 bytes, checksum mismatch). -/
theorem return_value_meaning (client : L2SAP) (out : List Byte) (len activity rc : Int)
    (buf : List Byte) (peer : SockAddrIn) :
    ((l2sap_recvfrom_timeout client out len activity rc buf peer).ret = 0 ↔
      activity = 0 ∨ (0 < activity ∧ rc = 8)) ∧
    (0 < (l2sap_recvfrom_timeout client out len activity rc buf peer).ret ↔
      0 < activity ∧ 8 < rc ∧ compute_checksum (buf.set 6 0) rc = buf.getD 6 0) ∧
    ((l2sap_recvfrom_timeout client out len activity rc buf peer).ret = -1 ↔
      activity < 0 ∨ (0 < activity ∧ (rc < 8 ∨
        (8 < rc ∧ compute_checksum (buf.set 6 0) rc ≠ buf.getD 6 0)))) := by
  have hck : compute_checksum (buf.set 6 0) rc = checksumLoop buf rc.toNat :=
    checksumLoop_set_offset buf 0 rc.toNat
  have h6 : buf.getD 6 0 = buf.getD checksumOffset 0 := rfl
  rw [hck, h6]
  rcases recv_cases client out len activity rc buf peer with
    ⟨ha, h⟩ | ⟨ha, h⟩ | ⟨ha, h8, h⟩ | ⟨ha, h8, h⟩ | ⟨ha, h8, hc, h⟩ | ⟨ha, h8, hc, h⟩
  · have h1 : ¬ activity = 0 := by omega
    have h2 : ¬ 0 < activity := by omega
    rw [h]
    simp [-List.getD_eq_getElem?_getD, ha, h1, h2]
  · have h1 : ¬ activity < 0 := by omega
    have h2 : ¬ 0 < activity := by omega
    rw [h]
    simp [-List.getD_eq_getElem?_getD, ha, h1, h2]
  · have h1 : ¬ activity = 0 := by omega
    have h2 : ¬ activity < 0 := by omega
    have h3 : ¬ rc = 8 := by omega
    have h4 : ¬ 8 < rc := by omega
    rw [h]
    simp [-List.getD_eq_getElem?_getD, ha, h8, h1, h2, h3, h4]
  · have h1 : ¬ activity = 0 := by omega
    have h2 : ¬ activity < 0 := by omega
    have h3 : ¬ rc < 8 := by omega
    have h4 : ¬ 8 < rc := by omega
    rw [h]
    simp [-List.getD_eq_getElem?_getD, ha, h8, h1, h2, h3, h4]
  · have h1 : ¬ activity = 0 := by omega
    have h2 : ¬ activity < 0 := by omega
    have h3 : ¬ rc = 8 := by omega
    have h4 : ¬ rc < 8 := by omega
    rw [h]
    simp [-List.getD_eq_getElem?_getD, ha, h8, hc, h1, h2, h3, h4]
  · have h1 : ¬ activity = 0 := by omega
    have h2 : ¬ activity < 0 := by omega
    have h3 : ¬ rc = 8 := by omega
    have h4 : ¬ rc < 8 := by omega
    have h5 : ¬ rc - 8 = 0 := by omega
    have h6 : ¬ rc - 8 = -1 := by omega
    have h7 : 0 < rc - 8 := by omega
    rw [h]
    simp [-List.getD_eq_getElem?_getD, ha, h8, hc, h1, h2, h3, h4, h5, h6, h7]

/-- Claim C15, the validation decision for a datagram with a payload: when a datagram of
`rc > 8` bytes has been received, the call returns -1 if and only if the byte at index 6
differs from the XOR of all the other bytes; otherwise bytes `8 .. rc - 1` are copied to
the output, the peer is set to the sender and `rc - 8` is returned. The decision is the
same for every session, output buffer, capacity and sender. -/
theorem validation_decision (client : L2SAP) (out : List Byte) (len activity rc : Int)
    (buf : List Byte) (peer : SockAddrIn)
    (hact : 0 < activity) (hrc : 8 < rc) (hint : rc < 2 ^ 31) (hbuf : (buf.length : Int) = rc) :
    ((l2sap_recvfrom_timeout client out len activity rc buf peer).ret = -1 ↔
      buf.getD 6 0 ≠ (buf.eraseIdx 6).foldl bxor 0) ∧
    (buf.getD 6 0 = (buf.eraseIdx 6).foldl bxor 0 →
      l2sap_recvfrom_timeout client out len activity rc buf peer
        = { client := { socket := client.socket, peer_addr := peer },
            data := buf.drop 8 ++ out.drop (buf.length - 8),
            ret := rc - 8 }) ∧
    (∀ (client2 : L2SAP) (out2 : List Byte) (len2 : Int) (peer2 : SockAddrIn),
      ((l2sap_recvfrom_timeout client2 out2 len2 activity rc buf peer2).ret = -1 ↔
        (l2sap_recvfrom_timeout client out len activity rc buf peer).ret = -1)) := by
  subst hbuf
  have hfold : checksumLoop buf buf.length = (buf.eraseIdx 6).foldl bxor 0 :=
    checksumLoop_eq_foldl buf
  have hsz := toSizeT_sub_header buf.length (by omega) hint
  have hdec : ∀ (c : L2SAP) (o : List Byte) (l : Int) (p : SockAddrIn),
      ((l2sap_recvfrom_timeout c o l activity (buf.length : Int) buf p).ret = -1 ↔
        buf.getD 6 0 ≠ (buf.eraseIdx 6).foldl bxor 0) := by
    intro c o l p
    rw [recv_long c o l activity _ buf p hact hrc, Int.toNat_ofNat, hfold]
    by_cases h : (buf.eraseIdx 6).foldl bxor 0 = buf.getD checksumOffset 0
    · rw [if_neg (by simp [h])]
      have h' : buf.getD 6 0 = (buf.eraseIdx 6).foldl bxor 0 := h.symm
      simp only [h', ne_eq, not_true_eq_false, iff_false]
      omega
    · rw [if_pos h]
      have h' : buf.getD 6 0 ≠ (buf.eraseIdx 6).foldl bxor 0 := fun e => h e.symm
      simp only [ne_eq, h', not_false_eq_true]
  refine ⟨hdec client out len peer, ?_, ?_⟩
  · intro h
    rw [recv_long client out len activity _ buf peer hact hrc, Int.toNat_ofNat, hfold,
      if_neg (by simp [← h, checksumOffset]), hsz, List.take_of_length_le (by simp)]
  · intro c2 o2 l2 p2
    rw [hdec c2 o2 l2 p2, hdec client out len peer]

theorem validation_decision_witness :
    ((0 : Int) < 1 ∧ (8 : Int) < 12 ∧ (12 : Int) < 2 ^ 31 ∧
      ((([10, 0, 0, 1, 0, 12, 3, 0, 1, 2, 3, 4] : List Byte).length : Nat) : Int) = 12 ∧
      ([10, 0, 0, 1, 0, 12, 3, 0, 1, 2, 3, 4] : List Byte).getD 6 0
        = (([10, 0, 0, 1, 0, 12, 3, 0, 1, 2, 3, 4] : List Byte).eraseIdx 6).foldl bxor 0) ∧
    l2sap_recvfrom_timeout exReceiver [9, 9, 9, 9] 4 1 12 [10, 0, 0, 1, 0, 12, 3, 0, 1, 2, 3, 4] exSender
      = { client := { socket := exReceiver.socket, peer_addr := exSender },
          data := ([10, 0, 0, 1, 0, 12, 3, 0, 1, 2, 3, 4] : List Byte).drop 8
            ++ ([9, 9, 9, 9] : List Byte).drop (([10, 0, 0, 1, 0, 12, 3, 0, 1, 2, 3, 4] : List Byte).length - 8),
          ret := 12 - 8 } :=
  ⟨by decide,
    (validation_decision exReceiver [9, 9, 9, 9] 4 1 12 [10, 0, 0, 1, 0, 12, 3, 0, 1, 2, 3, 4] exSender
      (by decide) (by decide) (by decide) (by decide)).2.1 (by decide)⟩

/-- Claim C16, the detection gap of the XOR checksum: for every frame `l2sap_sendto`
builds with a payload of at least one byte, every two distinct byte indices `i`, `j`
other than 6 and every bit `k`, the frame with bit `k` inverted in both bytes is still
delivered by `l2sap_recvfrom_timeout` (it returns the payload length, not -1), although
it differs from the frame that was sent. -/
theorem double_flip_undetected (L2Framesize : Nat) (client receiver : L2SAP)
    (P out : List Byte) (wc len activity : Int) (peer : SockAddrIn) (i j : Nat) (k : Fin 8)
    (hpayload : 1 ≤ P.length) (hsize : 8 + P.length ≤ L2Framesize) (hint : L2Framesize < 2 ^ 31)
    (hact : 0 < activity) (hi : i < 8 + P.length) (hj : j < 8 + P.length) (hij : i ≠ j)
    (hi6 : i ≠ 6) (hj6 : j ≠ 6) :
    ∃ frame : List Byte,
      (l2sap_sendto L2Framesize client P (P.length : Int) wc).sent
        = [{ socket := client.socket, bytes := frame, dest := client.peer_addr }] ∧
      (l2sap_recvfrom_timeout receiver out len activity (frame.length : Int)
          ((frame.set i (flipBit (frame.getD i 0) k)).set j (flipBit (frame.getD j 0) k))
          peer).ret = (P.length : Int) ∧
      (l2sap_recvfrom_timeout receiver out len activity (frame.length : Int)
          ((frame.set i (flipBit (frame.getD i 0) k)).set j (flipBit (frame.getD j 0) k))
          peer).ret ≠ -1 ∧
      (frame.set i (flipBit (frame.getD i 0) k)).set j (flipBit (frame.getD j 0) k) ≠ frame := by
  refine ⟨sentFrame client.peer_addr.sin_addr P, ?_, ?_⟩
  · rw [sendto_eq L2Framesize client P wc hsize hint]
  · have hlen := sentFrame_length client.peer_addr.sin_addr P
    have hck : checksumLoop ((List.set (sentFrame client.peer_addr.sin_addr P) i
        (flipBit ((sentFrame client.peer_addr.sin_addr P).getD i 0) k)).set j
        (flipBit ((sentFrame client.peer_addr.sin_addr P).getD j 0) k)) (8 + P.length)
        = ((List.set (sentFrame client.peer_addr.sin_addr P) i
        (flipBit ((sentFrame client.peer_addr.sin_addr P).getD i 0) k)).set j
        (flipBit ((sentFrame client.peer_addr.sin_addr P).getD j 0) k)).getD checksumOffset 0 := by
      rw [checksumLoop_set _ j _ _ hj hj6 (by rw [List.length_set, hlen]; exact hj),
        checksumLoop_set _ i _ _ hi hi6 (by rw [hlen]; exact hi),
        getD_set_ne _ i j _ hij, getD_set_ne _ j checksumOffset _ hj6,
        getD_set_ne _ i checksumOffset _ hi6, sentFrame_checksum, flipBit, flipBit,
        bxor_double_flip]
    have hret : (l2sap_recvfrom_timeout receiver out len activity
        ((sentFrame client.peer_addr.sin_addr P).length : Int)
        ((List.set (sentFrame client.peer_addr.sin_addr P) i
        (flipBit ((sentFrame client.peer_addr.sin_addr P).getD i 0) k)).set j
        (flipBit ((sentFrame client.peer_addr.sin_addr P).getD j 0) k)) peer).ret
        = (P.length : Int) := by
      rw [recv_long receiver out len activity _ _ peer hact (by rw [hlen]; omega),
        Int.toNat_ofNat, hlen, if_neg (fun h => h hck)]
      simp only
      omega
    refine ⟨hret, by rw [hret]; omega, ?_⟩
    intro heq
    have h1 := congrArg (fun l => l.getD i 0) heq
    simp only at h1
    rw [getD_set_ne _ j i _ (Ne.symm hij), getD_set_eq _ i _ (by rw [hlen]; exact hi)] at h1
    exact bxor_ne_self _ _ (toByte_pow_ne_zero k) h1

theorem double_flip_undetected_witness :
    (1 ≤ ([1, 2, 3, 4] : List Byte).length ∧ 8 + ([1, 2, 3, 4] : List Byte).length ≤ 1024 ∧
      1024 < 2 ^ 31 ∧ (0 : Int) < 1 ∧ 0 < 8 + ([1, 2, 3, 4] : List Byte).length ∧
      9 < 8 + ([1, 2, 3, 4] : List Byte).length ∧ 0 ≠ 9 ∧ 0 ≠ 6 ∧ 9 ≠ 6) ∧
    ∃ frame : List Byte,
      (l2sap_sendto 1024 exClient [1, 2, 3, 4] (([1, 2, 3, 4] : List Byte).length : Int) 0).sent
        = [{ socket := exClient.socket, bytes := frame, dest := exClient.peer_addr }] ∧
      (l2sap_recvfrom_timeout exReceiver [9, 9, 9, 9] 4 1 (frame.length : Int)
          ((frame.set 0 (flipBit (frame.getD 0 0) 5)).set 9 (flipBit (frame.getD 9 0) 5))
          exSender).ret = (([1, 2, 3, 4] : List Byte).length : Int) ∧
      (l2sap_recvfrom_timeout exReceiver [9, 9, 9, 9] 4 1 (frame.length : Int)
          ((frame.set 0 (flipBit (frame.getD 0 0) 5)).set 9 (flipBit (frame.getD 9 0) 5))
          exSender).ret ≠ -1 ∧
      (frame.set 0 (flipBit (frame.getD 0 0) 5)).set 9 (flipBit (frame.getD 9 0) 5) ≠ frame :=
  ⟨by decide,
    double_flip_undetected 1024 exClient exReceiver [1, 2, 3, 4] [9, 9, 9, 9] 0 4 1 exSender
      0 9 5 (by decide) (by decide) (by decide) (by decide) (by decide) (by decide) (by decide)
      (by decide) (by decide)⟩

/-- Claim C17, a changed byte is detected: for every frame `l2sap_sendto` builds with a
payload of at least one byte, every byte index `i ≠ 6` of the frame and every value `v`
other than the byte stored at `i`, `l2sap_recvfrom_timeout` given the frame with byte `i`
replaced by `v` returns -1 and changes neither the session nor the output buffer. -/
theorem single_byte_change_detected (L2Framesize : Nat) (client receiver : L2SAP)
    (P out frame : List Byte) (wc len activity : Int) (peer : SockAddrIn) (i : Nat) (v : Byte)
    (hpayload : 1 ≤ P.length) (hsize : 8 + P.length ≤ L2Framesize) (hint : L2Framesize < 2 ^ 31)
    (hsent : (l2sap_sendto L2Framesize client P (P.length : Int) wc).sent
      = [{ socket := client.socket, bytes := frame, dest := client.peer_addr }])
    (hact : 0 < activity) (hi : i < frame.length) (hi6 : i ≠ 6) (hv : v ≠ frame.getD i 0) :
    l2sap_recvfrom_timeout receiver out len activity (frame.length : Int) (frame.set i v) peer
      = { client := receiver, data := out, ret := -1 } := by
  rw [sendto_eq L2Framesize client P wc hsize hint] at hsent
  simp only [List.cons.injEq, Datagram.mk.injEq, true_and, and_true] at hsent
  subst hsent
  have hlen := sentFrame_length client.peer_addr.sin_addr P
  rw [hlen] at hi
  rw [recv_long receiver out len activity _ _ peer hact (by rw [hlen]; omega), Int.toNat_ofNat,
    hlen, checksumLoop_set _ i _ _ hi hi6 (by rw [hlen]; exact hi),
    getD_set_ne _ i checksumOffset _ hi6, sentFrame_checksum]
  rw [if_pos (fun h => hv (bxor_replace_eq _ _ _ h).symm)]

theorem single_byte_change_detected_witness :
    (1 ≤ ([1, 2, 3, 4] : List Byte).length ∧ 8 + ([1, 2, 3, 4] : List Byte).length ≤ 1024 ∧
      1024 < 2 ^ 31 ∧
      (l2sap_sendto 1024 exClient [1, 2, 3, 4] (([1, 2, 3, 4] : List Byte).length : Int) 0).sent
        = [{ socket := exClient.socket, bytes := [10, 0, 0, 1, 0, 12, 3, 0, 1, 2, 3, 4],
             dest := exClient.peer_addr }] ∧
      (0 : Int) < 1 ∧ 9 < ([10, 0, 0, 1, 0, 12, 3, 0, 1, 2, 3, 4] : List Byte).length ∧ 9 ≠ 6 ∧
      (77 : Byte) ≠ ([10, 0, 0, 1, 0, 12, 3, 0, 1, 2, 3, 4] : List Byte).getD 9 0) ∧
    l2sap_recvfrom_timeout exReceiver [9, 9, 9, 9] 4 1
        (([10, 0, 0, 1, 0, 12, 3, 0, 1, 2, 3, 4] : List Byte).length : Int)
        (([10, 0, 0, 1, 0, 12, 3, 0, 1, 2, 3, 4] : List Byte).set 9 77) exSender
      = { client := exReceiver, data := [9, 9, 9, 9], ret := -1 } :=
  ⟨by decide,
    single_byte_change_detected 1024 exClient exReceiver [1, 2, 3, 4] [9, 9, 9, 9]
      [10, 0, 0, 1, 0, 12, 3, 0, 1, 2, 3, 4] 0 4 1 exSender 9 77
      (by decide) (by decide) (by decide) (by decide) (by decide) (by decide) (by decide)
      (by decide)⟩

/-- Claim C18 fails on the code: for a length `len` from -8 to -1 the sum
`sizeof (L2Header) + len`, taken in `size_t`, wraps around to `8 + len`, a value from 0
to 7; when that does not exceed `L2Framesize` the size check lets the call through
instead of returning -1, and `memcpy` is called with the size `2 ^ 64 + len`, which
does not fit in the `L2Framesize` bytes of `buff`: the copy overruns the buffer and the
call does not return, so -1 is not returned; `sendto` is not reached. -/
theorem sendto_negative_len_passes_check (L2Framesize : Nat) (client : L2SAP)
    (data : List Byte) (len wc : Int)
    (hlow : -8 ≤ len) (hneg : len < 0) (hfit : 8 + len ≤ (L2Framesize : Int))
    (hsize : L2Framesize < 2 ^ 64) :
    (l2sap_sendto L2Framesize client data len wc).copied = some (2 ^ 64 + len).toNat ∧
    L2Framesize < 8 + (2 ^ 64 + len).toNat ∧
    (l2sap_sendto L2Framesize client data len wc).ret = none ∧
    (l2sap_sendto L2Framesize client data len wc).ret ≠ some (-1) ∧
    (l2sap_sendto L2Framesize client data len wc).sent = [] := by
  have ht : ¬ toSizeT ((L2Headersize : Int) + len) > L2Framesize := by
    unfold toSizeT L2Headersize
    omega
  have hn : toSizeT len = (2 ^ 64 + len).toNat := by
    unfold toSizeT
    omega
  have hover : L2Headersize + (2 ^ 64 + len).toNat > L2Framesize := by
    unfold L2Headersize
    omega
  have hlt : L2Framesize < 8 + (2 ^ 64 + len).toNat := hover
  unfold l2sap_sendto
  simp only [if_neg ht, hn, if_pos hover]
  exact ⟨trivial, hlt, trivial, by simp, trivial⟩

theorem sendto_negative_len_passes_check_witness :
    ((-8 : Int) ≤ -1 ∧ (-1 : Int) < 0 ∧ (8 : Int) + -1 ≤ ((1024 : Nat) : Int) ∧
      1024 < 2 ^ 64) ∧
    (l2sap_sendto 1024 exClient [1, 2, 3] (-1) 0).copied = some 18446744073709551615 ∧
    1024 < 8 + 18446744073709551615 ∧
    (l2sap_sendto 1024 exClient [1, 2, 3] (-1) 0).ret = none ∧
    (l2sap_sendto 1024 exClient [1, 2, 3] (-1) 0).ret ≠ some (-1) ∧
    (l2sap_sendto 1024 exClient [1, 2, 3] (-1) 0).sent = [] :=
  ⟨by decide,
    sendto_negative_len_passes_check 1024 exClient [1, 2, 3] (-1) 0 (by decide) (by decide)
      (by decide) (by decide)⟩

end L2
